import Mathlib

/-!
Verification of `compute_metrics_table.py` (week1 assembly-metrics script).

The Python source is shallowly embedded below:
* a FASTA file's content is a `String`; iterating the file's lines is
  modelled by splitting the content's characters on the newline character
  (Python's `for raw in f` yields lines whose trailing newline `strip()`
  removes, so splitting first and stripping afterwards is equivalent);
  a line is its list of characters;
* `Path` existence checks are modelled by a directory abstraction
  `Dir := String → Option String` mapping a file name to its content when
  the file exists;
* Python integers are `Nat` (all lengths are non-negative); the float
  comparison `acc >= total / 2.0` is modelled exactly as the rational
  inequality `acc ≥ total / 2`, written over `Nat` as `2 * acc ≥ total`;
* `raise FileNotFoundError` becomes `Except MetricsError`;
* mutation questions about Python list objects are settled over a small
  heap model (`Nat → List Nat`) with an allocation counter.
-/

/-- Model of Python `str.strip()` on a line: drop leading and trailing whitespace
characters (for the ASCII whitespace occurring in text files: space, tab,
carriage return, newline). -/
def pyStrip (cs : List Char) : List Char :=
  ((cs.dropWhile Char.isWhitespace).reverse.dropWhile Char.isWhitespace).reverse

/-- Test for `line.startswith` with the header marker, on a stripped line. -/
def startsWithGT : List Char → Bool
  | [] => false
  | c :: _ => c = '>'

/-- The loop of `read_fasta_lengths`: iterate the remaining lines carrying
the accumulated length `current_len` of the in-progress record; after the
loop, emit the accumulator if it is still positive
(`if current_len > 0: lengths.append(current_len)`). -/
def read_fasta_go : List (List Char) → Nat → List Nat
  | [], current_len => if current_len > 0 then [current_len] else []
  | raw :: rest, current_len =>
    let line := pyStrip raw
    if line.isEmpty then
      read_fasta_go rest current_len
    else if startsWithGT line then
      (if current_len > 0 then [current_len] else []) ++ read_fasta_go rest 0
    else
      read_fasta_go rest (current_len + line.length)

/-- The function `read_fasta_lengths`, with the file already split into lines:
return the list of sequence lengths of the FASTA records. -/
def read_fasta_lengths (lines : List (List Char)) : List Nat :=
  read_fasta_go lines 0

/-- Split a character stream at every occurrence of the separator. -/
def splitSep (sep : Char) : List Char → List Char → List (List Char)
  | [], acc => [acc.reverse]
  | c :: cs, acc =>
    if c = sep then acc.reverse :: splitSep sep cs []
    else splitSep sep cs (c :: acc)

/-- A file content's lines (Python's line iteration, with the trailing
newlines subsequently stripped). -/
def splitLines (content : String) : List (List Char) :=
  splitSep '\n' content.toList []

/-- The function `read_fasta_lengths` applied to a whole file content. -/
def read_fasta_lengths_file (content : String) : List Nat :=
  read_fasta_lengths (splitLines content)

/-- Model of Python `sorted(lengths, reverse=True)`: the input sorted in
descending order. -/
def sortDesc (lengths : List Nat) : List Nat :=
  List.insertionSort (· ≥ ·) lengths

/-- The loop of `calculate_n50`: walk the descending-sorted lengths,
accumulating; return the current length as soon as the accumulated sum
reaches half of `total` (`acc >= total / 2.0`, exactly: `2 * acc ≥ total`);
`return 0` if the loop falls through. -/
def n50_loop : List Nat → Nat → Nat → Nat
  | [], _, _ => 0
  | length :: rest, total, acc =>
    if 2 * (acc + length) ≥ total then length
    else n50_loop rest total (acc + length)

/-- The function `calculate_n50`: N50 of a list of contig lengths; 0 on empty input. -/
def calculate_n50 (lengths : List Nat) : Nat :=
  if lengths.isEmpty then 0
  else
    let sorted := sortDesc lengths
    let total := sorted.sum
    n50_loop sorted total 0

/-- Python `name.startswith(prefix)` on whole strings. -/
def strStartsWith (s pre : String) : Bool :=
  pre.toList.isPrefixOf s.toList

deriving instance DecidableEq for Except

/-- A dataset directory: maps a file name to the file's content when a file
of that name exists directly inside the directory. -/
def Dir : Type := String → Option String

/-- Existence check, Python `(dir / name).exists()`. -/
def Dir.hasFile (d : Dir) (name : String) : Bool :=
  (d name).isSome

/-- Reading the file `name` inside the directory (used only on files whose
existence was checked; missing files read as empty for totality). -/
def Dir.readFile (d : Dir) (name : String) : String :=
  (d name).getD ""

/-- The directory with file `name` set to content `c`, other entries
unchanged. -/
def Dir.setFile (d : Dir) (name : String) (c : String) : Dir :=
  fun m => if m = name then some c else d m

/-- Model of Python `Path(p).name`: the final non-empty path component. -/
def pathName (p : String) : String :=
  String.mk (((splitSep '/' p.toList []).filter
    (fun s => !s.isEmpty)).getLastD [])

/-- The two `FileNotFoundError` kinds raised by
`compute_metrics_for_dataset`, each carrying the path its message names:
the contigs-missing message (contig.fasta not found in the dataset
directory) carries the directory, the reference-missing message (no
reference provided and the expected path not found) carries the expected
reference path. -/
inductive MetricsError : Type where
  | contigsNotFound (datasetDir : String)
  | referenceNotFound (refPath : String)
  deriving DecidableEq

/-- The per-dataset metrics record, with the fields dataset,
num_contigs, total_contig_bases and N50 built by
`compute_metrics_for_dataset`. -/
structure Metrics : Type where
  dataset : String
  num_contigs : Nat
  total_contig_bases : Nat
  N50 : Nat
  deriving DecidableEq

/-- The function `compute_metrics_for_dataset`: check `contig.fasta` exists, then check
`long.fasta` exists, then read the contig lengths and build the metrics
record. `dataset_dir` is the directory's path; `d` is its listing. -/
def compute_metrics_for_dataset (dataset_dir : String) (d : Dir) :
    Except MetricsError Metrics :=
  if !(d.hasFile "contig.fasta") then
    .error (.contigsNotFound dataset_dir)
  else if !(d.hasFile "long.fasta") then
    .error (.referenceNotFound (dataset_dir ++ "/long.fasta"))
  else
    let contig_lengths := read_fasta_lengths_file (d.readFile "contig.fasta")
    .ok { dataset := pathName dataset_dir
          num_contigs := contig_lengths.length
          total_contig_bases := contig_lengths.sum
          N50 := calculate_n50 contig_lengths }

/-- The function `find_datasets`: from the base directory listing (`os.listdir`,
one `(name, entry)` pair per immediate child, a non-directory child being
an entry with no files inside), keep the children whose name starts with
`data` and that contain a `contig.fasta`, as paths `base/name`, sorted
ascending. -/
def find_datasets (base : String) (entries : List (String × Dir)) :
    List String :=
  List.insertionSort (· ≤ ·)
    ((entries.filter
        (fun e => strStartsWith e.1 "data" && e.2.hasFile "contig.fasta")).map
      (fun e => base ++ "/" ++ e.1))

/-- Outcome of the dataset-selection phase of `main`: either proceed to compute
metrics for a list of dataset paths, or terminate with an exit code and a
standard-error message. -/
inductive MainOutcome : Type where
  | proceed (datasets : List String)
  | terminate (code : Nat) (stderrMsg : String)
  deriving DecidableEq

/-- Python truthiness of `args.datasets` (`None` or a list). -/
def pyTruthy : Option (List String) → Bool
  | none => false
  | some ds => !ds.isEmpty

/-- The dataset-selection phase of `main`: `if args.datasets:` take them,
else auto-discover under the current working directory (whose listing is
`cwd`) and exit 1 with a diagnostic if none are found. -/
def main_select (argsDatasets : Option (List String))
    (cwd : List (String × Dir)) : MainOutcome :=
  if pyTruthy argsDatasets then
    .proceed (argsDatasets.getD [])
  else
    let datasets := find_datasets "." cwd
    if datasets.isEmpty then
      .terminate 1
        "No datasets found (expected directories like data1, data2 with contig.fasta)."
    else
      .proceed datasets

/-- Heap model for the mutation question: a store of Python list objects,
addressed by references, together with the next fresh reference. -/
def calculate_n50_heap (σ : Nat → List Nat) (next r : Nat) :
    Nat × (Nat → List Nat) × Nat :=
  let lengths := σ r
  if lengths.isEmpty then (0, σ, next)
  else
    -- `lengths = sorted(lengths, reverse=True)` allocates a fresh list
    -- object and rebinds only the local name to it
    let σ1 := fun i => if i = next then sortDesc lengths else σ i
    let sorted := σ1 next
    let total := sorted.sum
    (n50_loop sorted total 0, σ1, next + 1)

/-! ## Basic lemmas about `sortDesc` and the N50 loop -/

theorem sortDesc_perm (lengths : List Nat) :
    List.Perm (sortDesc lengths) lengths :=
  List.perm_insertionSort _ _

theorem sortDesc_sum (lengths : List Nat) :
    (sortDesc lengths).sum = lengths.sum :=
  (sortDesc_perm lengths).sum_eq

theorem sortDesc_ne_nil {lengths : List Nat} (h : lengths ≠ []) :
    sortDesc lengths ≠ [] := by
  intro hnil
  apply h
  have hperm := (sortDesc_perm lengths).symm
  rw [hnil] at hperm
  exact hperm.eq_nil

theorem isEmpty_false_of_ne_nil {l : List Nat} (h : l ≠ []) :
    l.isEmpty = false := by
  cases l with
  | nil => exact absurd rfl h
  | cons a t => rfl

/-- If the not-yet-consumed lengths still reach half, the loop returns one
of them. -/
theorem n50_loop_mem (s : List Nat) (total acc : Nat) (hne : s ≠ [])
    (hsum : 2 * (acc + s.sum) ≥ total) : n50_loop s total acc ∈ s := by
  induction s generalizing acc with
  | nil => exact absurd rfl hne
  | cons a rest ih =>
    by_cases hguard : 2 * (acc + a) ≥ total
    · simp [n50_loop, hguard]
    · rcases eq_or_ne rest [] with hr | hr
      · exfalso
        subst hr
        simp only [List.sum_cons, List.sum_nil] at hsum
        omega
      · have hmem : n50_loop rest total (acc + a) ∈ rest := by
          apply ih (acc + a) hr
          simp only [List.sum_cons] at hsum
          omega
        simp only [n50_loop, if_neg hguard]
        exact List.mem_cons_of_mem a hmem

/-- The loop returns the element at the first position where the
accumulated sum reaches half, and at no earlier position does it. -/
theorem n50_loop_first (s : List Nat) (total acc : Nat) (hne : s ≠ [])
    (hsum : 2 * (acc + s.sum) ≥ total) :
    ∃ k : Fin s.length, n50_loop s total acc = s.get k ∧
      2 * (acc + (s.take (k.1 + 1)).sum) ≥ total ∧
      ∀ j, j < k.1 → 2 * (acc + (s.take (j + 1)).sum) < total := by
  induction s generalizing acc with
  | nil => exact absurd rfl hne
  | cons a rest ih =>
    by_cases hguard : 2 * (acc + a) ≥ total
    · refine ⟨⟨0, Nat.succ_pos _⟩, ?_, ?_, ?_⟩
      · simp [n50_loop, hguard]
      · simp only [List.take_succ_cons, List.take_zero, List.sum_cons,
          List.sum_nil]
        omega
      · intro j hj
        exact absurd hj (Nat.not_lt_zero j)
    · rcases eq_or_ne rest [] with hr | hr
      · exfalso
        subst hr
        simp only [List.sum_cons, List.sum_nil] at hsum
        omega
      · have hsum' : 2 * ((acc + a) + rest.sum) ≥ total := by
          simp only [List.sum_cons] at hsum
          omega
        obtain ⟨k, hk1, hk2, hk3⟩ := ih (acc + a) hr hsum'
        refine ⟨⟨k.1 + 1, Nat.succ_lt_succ k.2⟩, ?_, ?_, ?_⟩
        · simp only [n50_loop, if_neg hguard]
          exact hk1
        · simp only [List.take_succ_cons, List.sum_cons]
          omega
        · intro j hj
          cases j with
          | zero =>
            simp only [List.take_succ_cons, List.take_zero, List.sum_cons,
              List.sum_nil]
            omega
          | succ j =>
            have hj' := hk3 j (Nat.lt_of_succ_lt_succ hj)
            simp only [List.take_succ_cons, List.sum_cons]
            omega

/-! ## Claim theorems -/

/-- C1: for every non-empty sequence of non-negative integer lengths,
`calculate_n50` returns the length at the first position, after sorting
descending and summing cumulatively, where the cumulative sum reaches or
exceeds half the total sum (no such position exists for an empty
sequence); being a plain function of its input, it is a pure,
deterministic reduction. -/
theorem calculate_n50_first_half_position (lengths : List Nat)
    (hne : lengths ≠ []) :
    List.Perm (sortDesc lengths) lengths ∧
    List.Sorted (· ≥ ·) (sortDesc lengths) ∧
    ∃ k : Fin (sortDesc lengths).length,
      calculate_n50 lengths = (sortDesc lengths).get k ∧
      2 * ((sortDesc lengths).take (k.1 + 1)).sum ≥ lengths.sum ∧
      ∀ j, j < k.1 → 2 * ((sortDesc lengths).take (j + 1)).sum < lengths.sum := by
  have hperm := sortDesc_perm lengths
  have hsorted : List.Sorted (· ≥ ·) (sortDesc lengths) :=
    List.sorted_insertionSort _ _
  have hsne := sortDesc_ne_nil hne
  have hsum_eq := sortDesc_sum lengths
  obtain ⟨k, hk1, hk2, hk3⟩ :=
    n50_loop_first (sortDesc lengths) ((sortDesc lengths).sum) 0 hsne
      (by omega)
  refine ⟨hperm, hsorted, k, ?_, ?_, ?_⟩
  · simp only [calculate_n50, isEmpty_false_of_ne_nil hne,
      Bool.false_eq_true, if_false]
    exact hk1
  · omega
  · intro j hj
    have := hk3 j hj
    omega

/-- Witness for C1 at the concrete input `[1, 1, 1, 1, 10]`. -/
theorem calculate_n50_first_half_position_witness :
    List.Perm (sortDesc [1, 1, 1, 1, 10]) [1, 1, 1, 1, 10] ∧
    List.Sorted (· ≥ ·) (sortDesc [1, 1, 1, 1, 10]) ∧
    ∃ k : Fin (sortDesc [1, 1, 1, 1, 10]).length,
      calculate_n50 [1, 1, 1, 1, 10] = (sortDesc [1, 1, 1, 1, 10]).get k ∧
      2 * ((sortDesc [1, 1, 1, 1, 10]).take (k.1 + 1)).sum ≥
        List.sum [1, 1, 1, 1, 10] ∧
      ∀ j, j < k.1 →
        2 * ((sortDesc [1, 1, 1, 1, 10]).take (j + 1)).sum <
          List.sum [1, 1, 1, 1, 10] :=
  calculate_n50_first_half_position [1, 1, 1, 1, 10] (by decide)

/-- C2: for every non-empty list of lengths the returned N50 is a member
of the input; on the empty list `calculate_n50` returns 0. -/
theorem calculate_n50_mem_or_zero :
    (∀ lengths : List Nat, lengths ≠ [] → calculate_n50 lengths ∈ lengths) ∧
    calculate_n50 [] = 0 := by
  constructor
  · intro lengths hne
    have hperm := sortDesc_perm lengths
    have hsne := sortDesc_ne_nil hne
    have hmem :=
      n50_loop_mem (sortDesc lengths) ((sortDesc lengths).sum) 0 hsne
        (by omega)
    simp only [calculate_n50, isEmpty_false_of_ne_nil hne,
      Bool.false_eq_true, if_false]
    exact hperm.mem_iff.mp hmem
  · rfl

/-- Witness for C2 at the concrete input `[10]`. -/
theorem calculate_n50_mem_or_zero_witness :
    calculate_n50 [10] ∈ [10] ∧ calculate_n50 [] = 0 :=
  ⟨calculate_n50_mem_or_zero.1 [10] (by decide),
    calculate_n50_mem_or_zero.2⟩

/-- Every length the FASTA loop ever emits is positive, whatever the
remaining lines and the accumulator are. -/
theorem read_fasta_go_pos (lines : List (List Char)) (current_len x : Nat)
    (hx : x ∈ read_fasta_go lines current_len) : 0 < x := by
  induction lines generalizing current_len with
  | nil =>
    simp only [read_fasta_go] at hx
    by_cases h : current_len > 0
    · rw [if_pos h] at hx
      have hxe := List.mem_singleton.mp hx
      omega
    · rw [if_neg h] at hx
      exact absurd hx (List.not_mem_nil x)
  | cons raw rest ih =>
    simp only [read_fasta_go] at hx
    by_cases hblank : (pyStrip raw).isEmpty
    · rw [if_pos hblank] at hx
      exact ih current_len hx
    · rw [if_neg hblank] at hx
      by_cases hhead : startsWithGT (pyStrip raw) = true
      · rw [if_pos hhead] at hx
        rcases List.mem_append.mp hx with hx | hx
        · by_cases h : current_len > 0
          · rw [if_pos h] at hx
            have hxe := List.mem_singleton.mp hx
            omega
          · rw [if_neg h] at hx
            exact absurd hx (List.not_mem_nil x)
        · exact ih 0 hx
      · rw [if_neg hhead] at hx
        exact ih (current_len + (pyStrip raw).length) hx

/-- C5: on the file content `>a\nACGT\nAC\n>b\nACGTACGTAC\n`,
`read_fasta_lengths` returns `[6, 10]`: wrapped sequence lines are
concatenated after whitespace-stripping and lengths come in file order. -/
theorem read_fasta_lengths_example :
    read_fasta_lengths_file ">a\nACGT\nAC\n>b\nACGTACGTAC\n" = [6, 10] := by
  decide

/-- C6: every length returned by `read_fasta_lengths` is strictly
positive; in particular a header immediately followed by another header
(a zero-length record) contributes no element, as on
`>a\n>b\nACGT\n`, which yields `[4]` alone. -/
theorem read_fasta_lengths_positive :
    (∀ (lines : List (List Char)) (x : Nat),
      x ∈ read_fasta_lengths lines → 0 < x) ∧
    read_fasta_lengths_file ">a\n>b\nACGT\n" = [4] := by
  constructor
  · intro lines x hx
    exact read_fasta_go_pos lines 0 x hx
  · decide

/-- Witness for C6 at the concrete length 4 of `>a\n>b\nACGT\n`. -/
theorem read_fasta_lengths_positive_witness : 0 < 4 :=
  read_fasta_lengths_positive.1 (splitLines ">a\n>b\nACGT\n") 4 (by decide)

/-- C7: when none of the remaining lines is a header, the loop ends by
emitting exactly the accumulated length of the final record — the
accumulator plus all remaining stripped line lengths — provided it is
positive (blank lines contribute length 0). -/
theorem read_fasta_final_emit (post : List (List Char)) (current_len : Nat)
    (hpost : ∀ raw ∈ post, startsWithGT (pyStrip raw) = false) :
    read_fasta_go post current_len =
      (if 0 < current_len + (post.map (fun raw => (pyStrip raw).length)).sum
       then [current_len + (post.map (fun raw => (pyStrip raw).length)).sum]
       else []) := by
  induction post generalizing current_len with
  | nil =>
    simp [read_fasta_go]
  | cons raw rest ih =>
    have hraw : startsWithGT (pyStrip raw) = false :=
      hpost raw (List.mem_cons_self raw rest)
    have hrest : ∀ r ∈ rest, startsWithGT (pyStrip r) = false :=
      fun r hr => hpost r (List.mem_cons_of_mem raw hr)
    by_cases hblank : (pyStrip raw).isEmpty
    · have hlen : (pyStrip raw).length = 0 := by
        rw [List.isEmpty_iff] at hblank
        rw [hblank]
        rfl
      simp only [read_fasta_go, if_pos hblank, List.map_cons, List.sum_cons,
        hlen, Nat.zero_add]
      exact ih current_len hrest
    · simp only [read_fasta_go, if_neg hblank, hraw, Bool.false_eq_true,
        if_false, List.map_cons, List.sum_cons]
      rw [ih (current_len + (pyStrip raw).length) hrest]
      have : current_len + (pyStrip raw).length +
          (rest.map (fun r => (pyStrip r).length)).sum =
          current_len + ((pyStrip raw).length +
            (rest.map (fun r => (pyStrip r).length)).sum) := by
        omega
      rw [this]

/-- Witness for C7: two trailing sequence lines with accumulator 2. -/
theorem read_fasta_final_emit_witness :
    read_fasta_go (splitLines "ACGT\nAC\n") 2 = [8] :=
  (read_fasta_final_emit (splitLines "ACGT\nAC\n") 2 (by decide)).trans
    (by decide)

theorem contig_ne_long : ("contig.fasta" : String) ≠ "long.fasta" := by
  decide

/-- C3: with both `contig.fasta` and `long.fasta` present, the metrics
record has `num_contigs` the number of lengths read from `contig.fasta`,
`total_contig_bases` their sum and `N50` their `calculate_n50`; replacing
the content of `long.fasta` never changes the result. -/
theorem compute_metrics_fields_and_ref_unused (p : String) (d : Dir)
    (h1 : d.hasFile "contig.fasta" = true)
    (h2 : d.hasFile "long.fasta" = true) :
    compute_metrics_for_dataset p d =
      .ok { dataset := pathName p
            num_contigs :=
              (read_fasta_lengths_file (d.readFile "contig.fasta")).length
            total_contig_bases :=
              (read_fasta_lengths_file (d.readFile "contig.fasta")).sum
            N50 :=
              calculate_n50
                (read_fasta_lengths_file (d.readFile "contig.fasta")) } ∧
    ∀ c : String,
      compute_metrics_for_dataset p (d.setFile "long.fasta" c) =
        compute_metrics_for_dataset p d := by
  constructor
  · simp [compute_metrics_for_dataset, h1, h2]
  · intro c
    have e1 : (d.setFile "long.fasta" c).hasFile "contig.fasta" =
        d.hasFile "contig.fasta" := by
      simp [Dir.hasFile, Dir.setFile, contig_ne_long]
    have e2 : (d.setFile "long.fasta" c).hasFile "long.fasta" = true := by
      simp [Dir.hasFile, Dir.setFile]
    have e3 : (d.setFile "long.fasta" c).readFile "contig.fasta" =
        d.readFile "contig.fasta" := by
      simp [Dir.readFile, Dir.setFile, contig_ne_long]
    simp [compute_metrics_for_dataset, e1, e2, e3, h1, h2]

def exampleDir : Dir := fun n =>
  if n = "contig.fasta" then some ">a\nACGT\nAC\n>b\nACGTACGTAC\n"
  else if n = "long.fasta" then some "ref" else none

/-- Witness for C3 on a concrete two-record dataset directory. -/
theorem compute_metrics_fields_and_ref_unused_witness :
    compute_metrics_for_dataset "data1" exampleDir =
      .ok { dataset := pathName "data1"
            num_contigs :=
              (read_fasta_lengths_file
                (exampleDir.readFile "contig.fasta")).length
            total_contig_bases :=
              (read_fasta_lengths_file
                (exampleDir.readFile "contig.fasta")).sum
            N50 :=
              calculate_n50
                (read_fasta_lengths_file
                  (exampleDir.readFile "contig.fasta")) } ∧
    ∀ c : String,
      compute_metrics_for_dataset "data1" (exampleDir.setFile "long.fasta" c) =
        compute_metrics_for_dataset "data1" exampleDir :=
  compute_metrics_fields_and_ref_unused "data1" exampleDir (by decide)
    (by decide)

/-- C4: lacking `contig.fasta`, the aggregator fails with the
contigs-missing error naming the directory — whatever the status of
`long.fasta`, so the contigs check comes first; with `contig.fasta` but no
`long.fasta`, it fails with the reference-missing error naming the
expected reference path. -/
theorem compute_metrics_missing_file_errors :
    (∀ (p : String) (d : Dir), d.hasFile "contig.fasta" = false →
      compute_metrics_for_dataset p d =
        .error (.contigsNotFound p)) ∧
    (∀ (p : String) (d : Dir), d.hasFile "contig.fasta" = true →
      d.hasFile "long.fasta" = false →
      compute_metrics_for_dataset p d =
        .error (.referenceNotFound (p ++ "/long.fasta"))) := by
  constructor
  · intro p d h
    simp [compute_metrics_for_dataset, h]
  · intro p d h1 h2
    simp [compute_metrics_for_dataset, h1, h2]

def emptyDir : Dir := fun _ => none

def contigOnlyDir : Dir := fun n =>
  if n = "contig.fasta" then some ">a\nAC\n" else none

/-- Witness for C4 on concrete directories missing each file. -/
theorem compute_metrics_missing_file_errors_witness :
    compute_metrics_for_dataset "dataX" emptyDir =
      .error (.contigsNotFound "dataX") ∧
    compute_metrics_for_dataset "dataY" contigOnlyDir =
      .error (.referenceNotFound ("dataY" ++ "/long.fasta")) :=
  ⟨compute_metrics_missing_file_errors.1 "dataX" emptyDir (by decide),
    compute_metrics_missing_file_errors.2 "dataY" contigOnlyDir (by decide)
      (by decide)⟩

/-- C8: `find_datasets` returns, sorted ascending (and possibly empty),
exactly the paths `base/name` of the immediate children whose name starts
with `data` and that contain a `contig.fasta` file. -/
theorem find_datasets_sorted_and_exact (base : String)
    (entries : List (String × Dir)) :
    List.Sorted (· ≤ ·) (find_datasets base entries) ∧
    List.Perm (find_datasets base entries)
      ((entries.filter
          (fun e =>
            strStartsWith e.1 "data" && e.2.hasFile "contig.fasta")).map
        (fun e => base ++ "/" ++ e.1)) ∧
    ∀ p : String, p ∈ find_datasets base entries ↔
      ∃ e ∈ entries, strStartsWith e.1 "data" = true ∧
        e.2.hasFile "contig.fasta" = true ∧ p = base ++ "/" ++ e.1 := by
  refine ⟨List.sorted_insertionSort _ _, List.perm_insertionSort _ _, ?_⟩
  intro p
  rw [find_datasets, List.mem_insertionSort, List.mem_map]
  constructor
  · rintro ⟨e, he, rfl⟩
    rw [List.mem_filter] at he
    obtain ⟨hmem, hb⟩ := he
    obtain ⟨hb1, hb2⟩ := Bool.and_eq_true_iff.mp hb
    exact ⟨e, hmem, hb1, hb2, rfl⟩
  · rintro ⟨e, hmem, hb1, hb2, rfl⟩
    refine ⟨e, List.mem_filter.mpr ⟨hmem, ?_⟩, rfl⟩
    rw [hb1, hb2]
    rfl

/-- Witness for C8: a matching child of a concrete listing is returned. -/
theorem find_datasets_sorted_and_exact_witness :
    ("." ++ "/" ++ "data1") ∈ find_datasets "." [("data1", exampleDir)] :=
  ((find_datasets_sorted_and_exact "." [("data1", exampleDir)]).2.2
      ("." ++ "/" ++ "data1")).mpr
    ⟨("data1", exampleDir), List.mem_singleton.mpr rfl, by decide, by decide,
      rfl⟩

/-- C9: passing `--datasets` with an empty list behaves exactly like
omitting the flag — auto-discovery runs — and when discovery under the
current working directory finds nothing, the run terminates with exit
status 1 and the no-datasets diagnostic on standard error. -/
theorem main_select_empty_flag (cwd : List (String × Dir)) :
    main_select (some []) cwd = main_select none cwd ∧
    (find_datasets "." cwd = [] →
      main_select (some []) cwd =
        .terminate 1
          "No datasets found (expected directories like data1, data2 with contig.fasta).") := by
  constructor
  · rfl
  · intro h
    simp [main_select, pyTruthy, h]

/-- Witness for C9 on an empty working directory. -/
theorem main_select_empty_flag_witness :
    main_select (some []) [] =
      .terminate 1
        "No datasets found (expected directories like data1, data2 with contig.fasta)." :=
  (main_select_empty_flag []).2 (by decide)

/-- C10: run over the heap of list objects, `calculate_n50` leaves every
allocated list — in particular its input list — exactly as it was
(`sorted` copies into a fresh object), while returning the same value as
the functional `calculate_n50` of the input's contents. -/
theorem calculate_n50_heap_frame (σ : Nat → List Nat) (next r : Nat)
    (h : r < next) :
    (calculate_n50_heap σ next r).2.1 r = σ r ∧
    (∀ i, i < next → (calculate_n50_heap σ next r).2.1 i = σ i) ∧
    (calculate_n50_heap σ next r).1 = calculate_n50 (σ r) := by
  have hframe : ∀ i, i < next → (calculate_n50_heap σ next r).2.1 i = σ i := by
    intro i hi
    have hne : i ≠ next := Nat.ne_of_lt hi
    by_cases he : (σ r).isEmpty
    · simp [calculate_n50_heap, he]
    · simp [calculate_n50_heap, he, hne]
  refine ⟨hframe r h, hframe, ?_⟩
  by_cases he : (σ r).isEmpty
  · simp [calculate_n50_heap, calculate_n50, he]
  · simp [calculate_n50_heap, calculate_n50, he]

def heap0 : Nat → List Nat := fun _ => [1, 1, 1, 1, 10]

/-- Witness for C10 on a one-object heap. -/
theorem calculate_n50_heap_frame_witness :
    (calculate_n50_heap heap0 1 0).2.1 0 = heap0 0 ∧
    (calculate_n50_heap heap0 1 0).1 = calculate_n50 (heap0 0) :=
  ⟨(calculate_n50_heap_frame heap0 1 0 (by decide)).1,
    (calculate_n50_heap_frame heap0 1 0 (by decide)).2.2⟩
